import Mathlib

/-!
# Verification of the twitchchat encoder and command serialization

Shallow embedding of `src/lib.rs`, `src/encoder.rs` and the command
modules `src/commands/{give_mod, raid, unmod, unvip}.rs`.

Byte sequences are modelled as `List Char` (all traffic here is ASCII);
fallible byte sinks (`std::io::Write` targets) are modelled by a
`TestWriter` carrying the bytes written so far and an operation-indexed
failure schedule, so that `write_all` and `flush` can succeed or fail
deterministically.  A `Vec<u8>` target never fails, so encoding into a
vector is modelled as pure concatenation of the written chunks.
-/

abbrev Bytes := List Char

/-- Bytes of a Lean string literal (UTF-8, ASCII throughout this model). -/
def str (s : String) : Bytes := s.data

/-! ## Constants from `src/lib.rs` -/

/-- `pub const TWITCH_IRC_ADDRESS: &str` — the Twitch IRC address for non-TLS connections. -/
def TWITCH_IRC_ADDRESS : String := "irc.chat.twitch.tv:6667"

/-- `pub const TWITCH_IRC_ADDRESS_TLS: &str` — the Twitch IRC address for TLS connections. -/
def TWITCH_IRC_ADDRESS_TLS : String := "irc.chat.twitch.tv:6697"

/-- `pub const TWITCH_WS_ADDRESS: &str` — the Twitch WebSocket address for non-TLS connections. -/
def TWITCH_WS_ADDRESS : String := "ws://irc-ws.chat.twitch.tv:80"

/-- `pub const TWITCH_WS_ADDRESS_TLS: &str` — the Twitch WebSocket address for TLS connections. -/
def TWITCH_WS_ADDRESS_TLS : String := "wss://irc-ws.chat.twitch.tv:443"

/-- `pub const TWITCH_TLS_DOMAIN: &str` — a TLS domain for Twitch. -/
def TWITCH_TLS_DOMAIN : String := "irc.chat.twitch.tv"

/-- `pub(crate) const JUSTINFAN1234: &str`. -/
def JUSTINFAN1234 : String := "justinfan1234"

/-- `pub const ANONYMOUS_LOGIN: (&str, &str) = (JUSTINFAN1234, JUSTINFAN1234)`. -/
def ANONYMOUS_LOGIN : String × String := (JUSTINFAN1234, JUSTINFAN1234)

/-! ## Channel normalization and the command byte writer

`src/commands/mod.rs` is not part of the provided sources; only its
callers (`give_mod.rs`, `raid.rs`, `unmod.rs`, `unvip.rs`) are.  The
helpers it defines are modelled from the specification. -/

/-- `channel.starts_with('#')` on the byte model. -/
def startsWithHash (c : Bytes) : Bool :=
  match c with
  | [] => false
  | ch :: _ => ch == '#'

/-- Modelled from the spec: `make_channel` of `src/commands/mod.rs` is not
under `src/`; the spec says "Channel names missing a leading `#` are
normalized to include one". -/
def make_channel (channel : Bytes) : Bytes :=
  if startsWithHash channel then channel else '#' :: channel

/-- Statement helper: the channel body, i.e. the argument with one leading
`'#'` removed when present.  Used only to phrase normalization claims. -/
def stripHash (c : Bytes) : Bytes :=
  if startsWithHash c then c.tail else c

/-- Space-separated interleaving of the command parts
(`/subcommand`, arguments), as individual write chunks. -/
def joinParts : List Bytes → List Bytes
  | [] => []
  | [p] => [p]
  | p :: q :: rest => p :: str " " :: joinParts (q :: rest)

/-- Modelled from the spec: `ByteWriter::command` of `src/commands/mod.rs`
is not under `src/`; the spec says Twitch chat commands all serialize as
`PRIVMSG <channel> :/<subcommand> [args]\r\n`, and that for any command
taking a channel the encoding normalizes a missing leading `#`.  The
result is the list of `write_all` chunks the encoder emits. -/
def ByteWriter.command (channel : Bytes) (parts : List Bytes) : List Bytes :=
  [str "PRIVMSG ", make_channel channel, str " :"] ++ joinParts parts ++ [str "\r\n"]

/-- Modelled from the spec: the `write_cmd!` macro with a `Channel(..)`
target (`src/macros.rs` / `src/commands/mod.rs`, not under `src/`)
serializes as `PRIVMSG <channel> :<formatted>\r\n` with the channel
normalized. -/
def write_cmd (channel : Bytes) (formatted : Bytes) : List Bytes :=
  [str "PRIVMSG ", make_channel channel, str " :", formatted, str "\r\n"]

/-! ## Command values, from `src/commands/{give_mod, raid, unmod, unvip}.rs`

Each `Encodable` implementation is embedded as the list of chunks its
`encode` passes to `write_all` on the sink. -/

/-- `struct GiveMod<'a> { channel: Cow<'a, str>, username: &'a str }`. -/
structure GiveMod where
  channel : Bytes
  username : Bytes
  deriving DecidableEq

/-- `pub fn give_mod<'a>(channel, username)`: normalizes the channel via
`make_channel` at construction. -/
def give_mod (channel username : Bytes) : GiveMod :=
  { channel := make_channel channel, username := username }

/-- `impl Encodable for GiveMod`:
`ByteWriter::new(buf).command(&&*self.channel, &[&"/mod", &self.username])`. -/
def GiveMod.encodeChunks (m : GiveMod) : List Bytes :=
  ByteWriter.command m.channel [str "/mod", m.username]

/-- `struct Raid<'a> { source: &'a str, target: &'a str }`. -/
structure Raid where
  source : Bytes
  target : Bytes
  deriving DecidableEq

/-- `pub const fn raid<'a>(source, target)`: stores its fields verbatim. -/
def raid (source target : Bytes) : Raid :=
  { source := source, target := target }

/-- `impl Encodable for Raid`:
`ByteWriter::new(buf).command(self.source, &[&"/raid", &self.target])`. -/
def Raid.encodeChunks (m : Raid) : List Bytes :=
  ByteWriter.command m.source [str "/raid", m.target]

/-- `struct Unmod<'a> { channel: &'a str, username: &'a str }`. -/
structure Unmod where
  channel : Bytes
  username : Bytes
  deriving DecidableEq

/-- `pub const fn unmod<'a>(channel, username)`: stores its fields verbatim. -/
def unmod (channel username : Bytes) : Unmod :=
  { channel := channel, username := username }

/-- `impl Encodable for Unmod`:
`write_cmd!(buf, Channel(self.channel) => "/unmod {}", self.username)`. -/
def Unmod.encodeChunks (m : Unmod) : List Bytes :=
  write_cmd m.channel (str "/unmod " ++ m.username)

/-- `struct Unvip<'a> { channel: Cow<'a, str>, username: &'a str }`. -/
structure Unvip where
  channel : Bytes
  username : Bytes
  deriving DecidableEq

/-- `pub fn unvip<'a>(channel, username)`: normalizes the channel via
`make_channel` at construction. -/
def unvip (channel username : Bytes) : Unvip :=
  { channel := make_channel channel, username := username }

/-- `impl Encodable for Unvip`:
`ByteWriter::new(buf).command(&&*self.channel, &[&"/unvip", &self.username])`. -/
def Unvip.encodeChunks (m : Unvip) : List Bytes :=
  ByteWriter.command m.channel [str "/unvip", m.username]

/-- `impl Encodable for str`: `buf.write_all(self.as_bytes())` — one chunk,
the string's own bytes. -/
def Str.encodeChunks (s : Bytes) : List Bytes := [s]

/-- `impl Encodable for String`: `buf.write_all(self.as_bytes())`. -/
def StringOwned.encodeChunks (s : Bytes) : List Bytes := [s]

/-- The `encodable_byte_slice!` impls for `[u8]`, `Box<[u8]>`, `Rc<[u8]>`,
`Arc<[u8]>` and `Vec<u8>`: `buf.write_all(self)`. -/
def ByteSlice.encodeChunks (b : Bytes) : List Bytes := [b]

/-- Encoding a message into a `Vec<u8>`: each `write_all` chunk is
appended in order and never fails, so the result is the concatenation. -/
def encodeToVec (chunks : List Bytes) : Bytes := chunks.flatten

/-! ## Fallible byte sinks -/

/-- Model of a fallible `std::io::Write` sink: the bytes written so far,
a schedule saying whether the n-th I/O operation (`write_all` or `flush`)
fails, and the count of operations performed. -/
structure TestWriter where
  written : Bytes
  fails : Nat → Bool
  ops : Nat

/-- `write_all`: appends the bytes on success; on a scheduled failure the
bytes are not recorded.  Either way the operation counter advances. -/
def TestWriter.write_all (w : TestWriter) (data : Bytes) : TestWriter × Bool :=
  if w.fails w.ops then ({ w with ops := w.ops + 1 }, false)
  else ({ w with written := w.written ++ data, ops := w.ops + 1 }, true)

/-- `flush`: succeeds or fails per the schedule; never alters the bytes. -/
def TestWriter.flush (w : TestWriter) : TestWriter × Bool :=
  if w.fails w.ops then ({ w with ops := w.ops + 1 }, false)
  else ({ w with ops := w.ops + 1 }, true)

/-- A writer on which every operation succeeds. -/
def noFail (w : TestWriter) : Prop := ∀ n, w.fails n = false

/-- `msg.encode(&mut writer)` for a fallible sink: the chunks are written
in order by successive `write_all` calls, stopping at the first failure
(the `?` operator). -/
def writeChunks (w : TestWriter) : List Bytes → TestWriter × Bool
  | [] => (w, true)
  | c :: rest =>
    let r := w.write_all c
    if r.2 then writeChunks r.1 rest else (r.1, false)

/-! ## The synchronous `Encoder`, from `src/encoder.rs` -/

/-- `pub struct Encoder<W> { writer: W }`. -/
structure Encoder where
  writer : TestWriter

/-- `Encoder::encode`: `msg.encode(&mut self.writer)?; self.writer.flush()`. -/
def Encoder.encode (e : Encoder) (chunks : List Bytes) : Encoder × Bool :=
  let r1 := writeChunks e.writer chunks
  if r1.2 then
    let r2 := r1.1.flush
    (Encoder.mk r2.1, r2.2)
  else (Encoder.mk r1.1, false)

/-! ## The `AsyncEncoder`, from `src/encoder.rs` -/

/-- `pub struct AsyncEncoder<W> { writer: W, pos: usize, data: Vec<u8> }`. -/
structure AsyncEncoder where
  writer : TestWriter
  pos : Nat
  data : Bytes

/-- `AsyncEncoder::encode_sync`:
```
msg.encode(&mut self.data)?;
let data = &self.data[self.pos..];
self.writer.write_all(data)?;
self.writer.flush()?;
self.data.clear();
self.pos = 0;
Ok(())
```
Writing into the `Vec` never fails; a `?` early return leaves the fields
mutated so far (the appended `data`, the unchanged `pos`) in place. -/
def AsyncEncoder.encode_sync (e : AsyncEncoder) (chunks : List Bytes) :
    AsyncEncoder × Bool :=
  let data := e.data ++ chunks.flatten
  let r1 := e.writer.write_all (data.drop e.pos)
  if r1.2 then
    let r2 := r1.1.flush
    if r2.2 then ({ writer := r2.1, pos := 0, data := [] }, true)
    else ({ writer := r2.1, pos := e.pos, data := data }, false)
  else ({ writer := r1.1, pos := e.pos, data := data }, false)

/-- `AsyncEncoder::encode`: same statements as `encode_sync`, with the
write and flush awaited. -/
def AsyncEncoder.encode (e : AsyncEncoder) (chunks : List Bytes) :
    AsyncEncoder × Bool :=
  let data := e.data ++ chunks.flatten
  let r1 := e.writer.write_all (data.drop e.pos)
  if r1.2 then
    let r2 := r1.1.flush
    if r2.2 then ({ writer := r2.1, pos := 0, data := [] }, true)
    else ({ writer := r2.1, pos := e.pos, data := data }, false)
  else ({ writer := r1.1, pos := e.pos, data := data }, false)

/-- `AsyncEncoder::into_inner`:
```
if self.data.is_empty() { return Ok(self.writer); }
let data = std::mem::take(&mut self.data);
self.writer.write_all(&data).await?;
self.writer.flush().await?;
Ok(self.writer)
```
The returned pair is the (possibly advanced) writer and the success flag. -/
def AsyncEncoder.into_inner (e : AsyncEncoder) : TestWriter × Bool :=
  if e.data.isEmpty then (e.writer, true)
  else
    let r1 := e.writer.write_all e.data
    if r1.2 then r1.1.flush else (r1.1, false)

/-! ## Concrete writers used as witnesses -/

/-- A writer that never fails, starting empty. -/
def wOk : TestWriter := { written := [], fails := fun _ => false, ops := 0 }

/-- A writer whose first operation fails and all later ones succeed. -/
def wFail0 : TestWriter := { written := [], fails := fun n => n == 0, ops := 0 }

/-! ## Helper lemmas -/

theorem make_channel_eq (c : Bytes) : make_channel c = '#' :: stripHash c := by
  cases c with
  | nil => rfl
  | cons ch rest =>
    by_cases h : ch = '#'
    · subst h
      simp [make_channel, stripHash, startsWithHash]
    · simp [make_channel, stripHash, startsWithHash, h]

theorem startsWithHash_cons (x : Bytes) : startsWithHash ('#' :: x) = true := by
  simp [startsWithHash]

theorem make_channel_idem (c : Bytes) :
    make_channel (make_channel c) = make_channel c := by
  rw [make_channel_eq c, make_channel, startsWithHash_cons]
  simp

theorem stripHash_cons (x : Bytes) : stripHash ('#' :: x) = x := by
  simp [stripHash, startsWithHash_cons]

theorem flush_written (w : TestWriter) : (w.flush).1.written = w.written := by
  simp only [TestWriter.flush]
  split <;> rfl

theorem write_all_fails (w : TestWriter) (d : Bytes) :
    (w.write_all d).1.fails = w.fails := by
  simp only [TestWriter.write_all]
  split <;> rfl

theorem writeChunks_noFail (chunks : List Bytes) (w : TestWriter) (h : noFail w) :
    (writeChunks w chunks).1.written = w.written ++ chunks.flatten
    ∧ (writeChunks w chunks).2 = true
    ∧ (writeChunks w chunks).1.fails = w.fails
    ∧ (writeChunks w chunks).1.ops = w.ops + chunks.length := by
  induction chunks generalizing w with
  | nil => simp [writeChunks]
  | cons c rest ih =>
    have hw : w.fails w.ops = false := h w.ops
    have hstep : w.write_all c
        = ({ written := w.written ++ c, fails := w.fails, ops := w.ops + 1 }, true) := by
      simp [TestWriter.write_all, hw]
    have h' : noFail { written := w.written ++ c, fails := w.fails, ops := w.ops + 1 } := h
    have := ih { written := w.written ++ c, fails := w.fails, ops := w.ops + 1 } h'
    simp only [writeChunks, hstep, if_true] at *
    refine ⟨?_, this.2.1, this.2.2.1, ?_⟩
    · rw [this.1]
      simp
    · rw [this.2.2.2]
      simp
      omega

theorem writeChunks_ok_written (chunks : List Bytes) (w : TestWriter)
    (h : (writeChunks w chunks).2 = true) :
    (writeChunks w chunks).1.written = w.written ++ chunks.flatten := by
  induction chunks generalizing w with
  | nil => simp [writeChunks]
  | cons c rest ih =>
    by_cases hw : w.fails w.ops = true
    · exfalso
      simp [writeChunks, TestWriter.write_all, hw] at h
    · simp only [Bool.not_eq_true] at hw
      have hstep : w.write_all c
          = ({ written := w.written ++ c, fails := w.fails, ops := w.ops + 1 }, true) := by
        simp [TestWriter.write_all, hw]
      simp only [writeChunks, hstep, if_true] at h ⊢
      rw [ih _ h]
      simp

theorem make_channel_hash_strip (c : Bytes) :
    make_channel ('#' :: stripHash c) = make_channel c := by
  rw [make_channel_eq c]
  simp [make_channel, startsWithHash_cons]

/-! ## Claim theorems -/

/-- C7: the default endpoint constants equal exactly the four documented
addresses, and the anonymous login is the pair
`("justinfan1234", "justinfan1234")` with the same string on both sides. -/
theorem default_endpoints_and_anonymous_login :
    TWITCH_IRC_ADDRESS = "irc.chat.twitch.tv:6667"
    ∧ TWITCH_IRC_ADDRESS_TLS = "irc.chat.twitch.tv:6697"
    ∧ TWITCH_WS_ADDRESS = "ws://irc-ws.chat.twitch.tv:80"
    ∧ TWITCH_WS_ADDRESS_TLS = "wss://irc-ws.chat.twitch.tv:443"
    ∧ ANONYMOUS_LOGIN = ("justinfan1234", "justinfan1234")
    ∧ ANONYMOUS_LOGIN.1 = ANONYMOUS_LOGIN.2 :=
  ⟨rfl, rfl, rfl, rfl, rfl, rfl⟩

/-- C4: `give_mod("museun", "shaken_bot")` encodes to exactly the bytes
`"PRIVMSG #museun :/mod shaken_bot\r\n"`. -/
theorem give_mod_museun_encoding :
    encodeToVec ((give_mod (str "museun") (str "shaken_bot")).encodeChunks)
      = str "PRIVMSG #museun :/mod shaken_bot\r\n" := by decide

/-- C1: every channel-taking command (`give_mod`, `raid`'s source channel,
`unmod`, `unvip`) encodes with exactly one `'#'` immediately before the
channel body (`stripHash c`), and the encoding is unchanged when the caller
already supplied the leading `'#'`. -/
theorem channel_normalization (c u : Bytes) :
    (encodeToVec ((give_mod c u).encodeChunks)
        = str "PRIVMSG " ++ ('#' :: stripHash c) ++ str " :"
            ++ str "/mod" ++ str " " ++ u ++ str "\r\n"
      ∧ (give_mod c u).encodeChunks = (give_mod ('#' :: stripHash c) u).encodeChunks)
    ∧ (encodeToVec ((raid c u).encodeChunks)
        = str "PRIVMSG " ++ ('#' :: stripHash c) ++ str " :"
            ++ str "/raid" ++ str " " ++ u ++ str "\r\n"
      ∧ (raid c u).encodeChunks = (raid ('#' :: stripHash c) u).encodeChunks)
    ∧ (encodeToVec ((unmod c u).encodeChunks)
        = str "PRIVMSG " ++ ('#' :: stripHash c) ++ str " :"
            ++ (str "/unmod " ++ u) ++ str "\r\n"
      ∧ (unmod c u).encodeChunks = (unmod ('#' :: stripHash c) u).encodeChunks)
    ∧ (encodeToVec ((unvip c u).encodeChunks)
        = str "PRIVMSG " ++ ('#' :: stripHash c) ++ str " :"
            ++ str "/unvip" ++ str " " ++ u ++ str "\r\n"
      ∧ (unvip c u).encodeChunks = (unvip ('#' :: stripHash c) u).encodeChunks) := by
  refine ⟨⟨?_, ?_⟩, ⟨?_, ?_⟩, ⟨?_, ?_⟩, ⟨?_, ?_⟩⟩ <;>
    simp [encodeToVec, GiveMod.encodeChunks, Raid.encodeChunks,
      Unmod.encodeChunks, Unvip.encodeChunks, give_mod, raid, unmod, unvip,
      ByteWriter.command, write_cmd, joinParts, make_channel_idem,
      make_channel_hash_strip, make_channel_eq, stripHash_cons]

theorem write_all_ok_written (w : TestWriter) (d : Bytes)
    (h : (w.write_all d).2 = true) :
    (w.write_all d).1.written = w.written ++ d := by
  by_cases hf : w.fails w.ops = true
  · simp [TestWriter.write_all, hf] at h
  · simp only [Bool.not_eq_true] at hf
    simp [TestWriter.write_all, hf]

/-- C3: whenever `AsyncEncoder::encode_sync` or `AsyncEncoder::encode`
succeeds, the resulting encoder has an empty internal buffer and position
zero, so no bytes of one command are carried into a later encode. -/
theorem encode_success_drains (e : AsyncEncoder) (chunks : List Bytes) :
    ((e.encode_sync chunks).2 = true →
        (e.encode_sync chunks).1.data = [] ∧ (e.encode_sync chunks).1.pos = 0)
    ∧ ((e.encode chunks).2 = true →
        (e.encode chunks).1.data = [] ∧ (e.encode chunks).1.pos = 0) := by
  constructor <;>
  · intro h
    by_cases h1 : (e.writer.write_all ((e.data ++ chunks.flatten).drop e.pos)).2 = true
    · by_cases h2 :
          ((e.writer.write_all ((e.data ++ chunks.flatten).drop e.pos)).1.flush).2 = true
      · simp [AsyncEncoder.encode_sync, AsyncEncoder.encode, h1, h2]
      · simp [AsyncEncoder.encode_sync, AsyncEncoder.encode, h1, h2] at h
    · simp [AsyncEncoder.encode_sync, AsyncEncoder.encode, h1] at h

/-- Witness for C3 at a concrete encoder and command. -/
theorem encode_success_drains_witness :
    ((AsyncEncoder.mk wOk 0 []).encode_sync [str "A"]).1.data = []
    ∧ ((AsyncEncoder.mk wOk 0 []).encode_sync [str "A"]).1.pos = 0
    ∧ ((AsyncEncoder.mk wOk 0 []).encode [str "A"]).1.data = []
    ∧ ((AsyncEncoder.mk wOk 0 []).encode [str "A"]).1.pos = 0 := by
  have h := encode_success_drains (AsyncEncoder.mk wOk 0 []) [str "A"]
  exact ⟨(h.1 (by decide)).1, (h.1 (by decide)).2, (h.2 (by decide)).1, (h.2 (by decide)).2⟩

/-- C5: the sync `Encoder::encode` writes the message's bytes and then
flushes; it returns `Ok` exactly when both the encoding write and the
subsequent flush succeed, and on success the bytes appended to the writer
are exactly the message's encoding. -/
theorem sync_encoder_encode_spec (w : TestWriter) (chunks : List Bytes) :
    (((Encoder.mk w).encode chunks).2 = true
        ↔ ((writeChunks w chunks).2 = true
            ∧ ((writeChunks w chunks).1.flush).2 = true))
    ∧ (((Encoder.mk w).encode chunks).2 = true →
        ((Encoder.mk w).encode chunks).1.writer.written = w.written ++ chunks.flatten) := by
  constructor
  · by_cases h1 : (writeChunks w chunks).2 = true
    · simp [Encoder.encode, h1]
    · simp [Encoder.encode, h1]
  · intro h
    by_cases h1 : (writeChunks w chunks).2 = true
    · simp only [Encoder.encode, h1, if_true]
      rw [flush_written, writeChunks_ok_written _ _ h1]
    · simp [Encoder.encode, h1] at h

/-- Witness for C5 at a concrete writer and message. -/
theorem sync_encoder_encode_spec_witness :
    ((Encoder.mk wOk).encode [str "hi"]).1.writer.written
      = wOk.written ++ [str "hi"].flatten :=
  (sync_encoder_encode_spec wOk [str "hi"]).2 (by decide)

/-- C2 counterexample: with a writer whose first operation fails, an
`encode_sync` of command `"A"` fails, yet the failed bytes stay in
`data` (not discarded), and the next successful `encode_sync` of `"B"`
re-sends them: the writer ends up with `"AB"`.  The async `encode` path
behaves identically. -/
theorem async_encode_failure_discard_refuted :
    ((AsyncEncoder.mk wFail0 0 []).encode_sync [str "A"]).2 = false
    ∧ ((AsyncEncoder.mk wFail0 0 []).encode_sync [str "A"]).1.data ≠ []
    ∧ (((AsyncEncoder.mk wFail0 0 []).encode_sync [str "A"]).1.encode_sync [str "B"]).2 = true
    ∧ (((AsyncEncoder.mk wFail0 0 []).encode_sync [str "A"]).1.encode_sync
          [str "B"]).1.writer.written = str "A" ++ str "B"
    ∧ ((AsyncEncoder.mk wFail0 0 []).encode [str "A"]).2 = false
    ∧ ((AsyncEncoder.mk wFail0 0 []).encode [str "A"]).1.data ≠ [] := by decide

/-- C2 (amended): when `encode_sync` or `encode` fails at the underlying
write or flush, the internal buffer keeps the failed command's bytes and
the position is unchanged; any later successful encode then delivers the
whole buffer tail from the position offset — retained bytes included —
to the writer. -/
theorem async_encode_failure_keeps_buffer (e : AsyncEncoder) (chunks : List Bytes) :
    ((e.encode_sync chunks).2 = false →
        (e.encode_sync chunks).1.data = e.data ++ chunks.flatten
        ∧ (e.encode_sync chunks).1.pos = e.pos)
    ∧ ((e.encode_sync chunks).2 = true →
        (e.encode_sync chunks).1.writer.written
          = e.writer.written ++ (e.data ++ chunks.flatten).drop e.pos)
    ∧ ((e.encode chunks).2 = false →
        (e.encode chunks).1.data = e.data ++ chunks.flatten
        ∧ (e.encode chunks).1.pos = e.pos)
    ∧ ((e.encode chunks).2 = true →
        (e.encode chunks).1.writer.written
          = e.writer.written ++ (e.data ++ chunks.flatten).drop e.pos) := by
  refine ⟨?_, ?_, ?_, ?_⟩
  · intro h
    by_cases h1 : (e.writer.write_all ((e.data ++ chunks.flatten).drop e.pos)).2 = true
    · by_cases h2 :
          ((e.writer.write_all ((e.data ++ chunks.flatten).drop e.pos)).1.flush).2 = true
      · exact absurd h (by simp [AsyncEncoder.encode_sync, h1, h2])
      · simp [AsyncEncoder.encode_sync, h1, h2]
    · simp [AsyncEncoder.encode_sync, h1]
  · intro h
    by_cases h1 : (e.writer.write_all ((e.data ++ chunks.flatten).drop e.pos)).2 = true
    · by_cases h2 :
          ((e.writer.write_all ((e.data ++ chunks.flatten).drop e.pos)).1.flush).2 = true
      · simp only [AsyncEncoder.encode_sync, h1, h2, if_true]
        rw [flush_written, write_all_ok_written _ _ h1]
      · exact absurd h (by simp [AsyncEncoder.encode_sync, h1, h2])
    · exact absurd h (by simp [AsyncEncoder.encode_sync, h1])
  · intro h
    by_cases h1 : (e.writer.write_all ((e.data ++ chunks.flatten).drop e.pos)).2 = true
    · by_cases h2 :
          ((e.writer.write_all ((e.data ++ chunks.flatten).drop e.pos)).1.flush).2 = true
      · exact absurd h (by simp [AsyncEncoder.encode, h1, h2])
      · simp [AsyncEncoder.encode, h1, h2]
    · simp [AsyncEncoder.encode, h1]
  · intro h
    by_cases h1 : (e.writer.write_all ((e.data ++ chunks.flatten).drop e.pos)).2 = true
    · by_cases h2 :
          ((e.writer.write_all ((e.data ++ chunks.flatten).drop e.pos)).1.flush).2 = true
      · simp only [AsyncEncoder.encode, h1, h2, if_true]
        rw [flush_written, write_all_ok_written _ _ h1]
      · exact absurd h (by simp [AsyncEncoder.encode, h1, h2])
    · exact absurd h (by simp [AsyncEncoder.encode, h1])

/-- Witness for the amended C2: the concrete failing-then-succeeding run. -/
theorem async_encode_failure_keeps_buffer_witness :
    (((AsyncEncoder.mk wFail0 0 []).encode_sync [str "A"]).1.data
        = [] ++ [str "A"].flatten
      ∧ ((AsyncEncoder.mk wFail0 0 []).encode_sync [str "A"]).1.pos = 0)
    ∧ (((AsyncEncoder.mk wOk 0 (str "A")).encode_sync [str "B"]).1.writer.written
        = wOk.written ++ ((str "A" ++ [str "B"].flatten).drop 0)) :=
  ⟨(async_encode_failure_keeps_buffer (AsyncEncoder.mk wFail0 0 []) [str "A"]).1
      (by decide),
   (async_encode_failure_keeps_buffer (AsyncEncoder.mk wOk 0 (str "A")) [str "B"]).2.1
      (by decide)⟩

/-- C6: encoding is a pure function of the command's fields — writing any
of the four command values through a sink appends exactly
`encodeToVec (·.encodeChunks)`, a function of the value alone, regardless
of the sink's prior contents or state. -/
theorem encode_pure_of_fields (w : TestWriter) (h : noFail w)
    (g : GiveMod) (r : Raid) (um : Unmod) (uv : Unvip) :
    (writeChunks w g.encodeChunks).1.written = w.written ++ encodeToVec g.encodeChunks
    ∧ (writeChunks w r.encodeChunks).1.written = w.written ++ encodeToVec r.encodeChunks
    ∧ (writeChunks w um.encodeChunks).1.written = w.written ++ encodeToVec um.encodeChunks
    ∧ (writeChunks w uv.encodeChunks).1.written = w.written ++ encodeToVec uv.encodeChunks :=
  ⟨(writeChunks_noFail _ _ h).1, (writeChunks_noFail _ _ h).1,
   (writeChunks_noFail _ _ h).1, (writeChunks_noFail _ _ h).1⟩

/-- Witness for C6 at a concrete writer and concrete command values. -/
theorem encode_pure_of_fields_witness :
    (writeChunks wOk (give_mod (str "museun") (str "u")).encodeChunks).1.written
      = wOk.written ++ encodeToVec ((give_mod (str "museun") (str "u")).encodeChunks) :=
  (encode_pure_of_fields wOk (fun _ => rfl) (give_mod (str "museun") (str "u"))
    (raid (str "a") (str "b")) (unmod (str "a") (str "b"))
    (unvip (str "a") (str "b"))).1

/-- C8: from an empty internal buffer at position zero, the sync
`Encoder::encode`, the async `AsyncEncoder::encode` and
`AsyncEncoder::encode_sync` all succeed on a non-failing writer and
deliver the same byte sequence — the message's encoding — to it. -/
theorem sync_async_encode_agree (w : TestWriter) (chunks : List Bytes) (h : noFail w) :
    ((Encoder.mk w).encode chunks).1.writer.written = w.written ++ chunks.flatten
    ∧ ((Encoder.mk w).encode chunks).2 = true
    ∧ ((AsyncEncoder.mk w 0 []).encode chunks).1.writer.written = w.written ++ chunks.flatten
    ∧ ((AsyncEncoder.mk w 0 []).encode chunks).2 = true
    ∧ ((AsyncEncoder.mk w 0 []).encode_sync chunks).1.writer.written
        = w.written ++ chunks.flatten
    ∧ ((AsyncEncoder.mk w 0 []).encode_sync chunks).2 = true := by
  have hfn : ∀ n, w.fails n = false := h
  have hwc := writeChunks_noFail chunks w h
  have hfl : ((writeChunks w chunks).1.flush).2 = true := by
    have hf : (writeChunks w chunks).1.fails (writeChunks w chunks).1.ops = false := by
      rw [hwc.2.2.1]
      exact h _
    simp [TestWriter.flush, hf]
  refine ⟨?_, ?_, ?_, ?_, ?_, ?_⟩
  · simp only [Encoder.encode, hwc.2.1, if_true]
    rw [flush_written, hwc.1]
  · simp [Encoder.encode, hwc.2.1, hfl]
  · simp [AsyncEncoder.encode, TestWriter.write_all, TestWriter.flush, hfn]
  · simp [AsyncEncoder.encode, TestWriter.write_all, TestWriter.flush, hfn]
  · simp [AsyncEncoder.encode_sync, TestWriter.write_all, TestWriter.flush, hfn]
  · simp [AsyncEncoder.encode_sync, TestWriter.write_all, TestWriter.flush, hfn]

/-- Witness for C8 at a concrete writer and message. -/
theorem sync_async_encode_agree_witness :
    ((Encoder.mk wOk).encode [str "JOIN #museun\r\n"]).1.writer.written
      = wOk.written ++ [str "JOIN #museun\r\n"].flatten
    ∧ ((AsyncEncoder.mk wOk 0 []).encode [str "JOIN #museun\r\n"]).1.writer.written
      = wOk.written ++ [str "JOIN #museun\r\n"].flatten
    ∧ ((AsyncEncoder.mk wOk 0 []).encode_sync [str "JOIN #museun\r\n"]).1.writer.written
      = wOk.written ++ [str "JOIN #museun\r\n"].flatten :=
  ⟨(sync_async_encode_agree wOk [str "JOIN #museun\r\n"] (fun _ => rfl)).1,
   (sync_async_encode_agree wOk [str "JOIN #museun\r\n"] (fun _ => rfl)).2.2.1,
   (sync_async_encode_agree wOk [str "JOIN #museun\r\n"] (fun _ => rfl)).2.2.2.2.1⟩

/-- C9: `AsyncEncoder::into_inner` on an empty buffer returns the writer
untouched with no write or flush; on a non-empty buffer it writes the whole
buffer (from offset zero — the `pos` field is ignored, as the third
conjunct states) and flushes (two sink operations) before returning. -/
theorem into_inner_flushes_buffer (e : AsyncEncoder) :
    (e.data = [] → e.into_inner = (e.writer, true))
    ∧ (e.data ≠ [] → noFail e.writer →
        (e.into_inner).1.written = e.writer.written ++ e.data
        ∧ (e.into_inner).2 = true
        ∧ (e.into_inner).1.ops = e.writer.ops + 2)
    ∧ (∀ p, (AsyncEncoder.mk e.writer p e.data).into_inner = e.into_inner) := by
  refine ⟨?_, ?_, fun p => rfl⟩
  · intro h
    simp [AsyncEncoder.into_inner, h]
  · intro h hnf
    have hfn : ∀ n, e.writer.fails n = false := hnf
    have hne : e.data.isEmpty = false := by
      cases hd : e.data with
      | nil => exact absurd hd h
      | cons a l => rfl
    refine ⟨?_, ?_, ?_⟩
    · simp [AsyncEncoder.into_inner, hne, TestWriter.write_all, TestWriter.flush, hfn]
    · simp [AsyncEncoder.into_inner, hne, TestWriter.write_all, TestWriter.flush, hfn]
    · simp [AsyncEncoder.into_inner, hne, TestWriter.write_all, TestWriter.flush, hfn]

/-- Witness for C9: a non-empty buffer at position 5 is flushed in full,
and an empty buffer returns the writer unchanged. -/
theorem into_inner_flushes_buffer_witness :
    (((AsyncEncoder.mk wOk 5 (str "X")).into_inner).1.written = wOk.written ++ str "X"
      ∧ ((AsyncEncoder.mk wOk 5 (str "X")).into_inner).2 = true)
    ∧ (AsyncEncoder.mk wOk 7 []).into_inner = ((AsyncEncoder.mk wOk 7 []).writer, true) :=
  ⟨⟨((into_inner_flushes_buffer (AsyncEncoder.mk wOk 5 (str "X"))).2.1
        (by decide) (fun _ => rfl)).1,
    ((into_inner_flushes_buffer (AsyncEncoder.mk wOk 5 (str "X"))).2.1
        (by decide) (fun _ => rfl)).2.1⟩,
   (into_inner_flushes_buffer (AsyncEncoder.mk wOk 7 [])).1 rfl⟩

/-- C10: the `Encodable` impls for `str`, `String` and the byte-slice
family write exactly the value's own bytes, with no `\r\n` or any other
byte appended or altered. -/
theorem builtin_encodable_identity (s b : Bytes) (w : TestWriter) (h : noFail w) :
    encodeToVec (Str.encodeChunks s) = s
    ∧ encodeToVec (StringOwned.encodeChunks s) = s
    ∧ encodeToVec (ByteSlice.encodeChunks b) = b
    ∧ (writeChunks w (Str.encodeChunks s)).1.written = w.written ++ s
    ∧ (writeChunks w (ByteSlice.encodeChunks b)).1.written = w.written ++ b := by
  refine ⟨?_, ?_, ?_, ?_, ?_⟩
  · simp [encodeToVec, Str.encodeChunks]
  · simp [encodeToVec, StringOwned.encodeChunks]
  · simp [encodeToVec, ByteSlice.encodeChunks]
  · have hw := (writeChunks_noFail (Str.encodeChunks s) w h).1
    simpa [Str.encodeChunks] using hw
  · have hw := (writeChunks_noFail (ByteSlice.encodeChunks b) w h).1
    simpa [ByteSlice.encodeChunks] using hw

/-- Witness for C10 on the bytes of `"hello world\r\n"`. -/
theorem builtin_encodable_identity_witness :
    encodeToVec (Str.encodeChunks (str "hello world\r\n")) = str "hello world\r\n"
    ∧ (writeChunks wOk (Str.encodeChunks (str "hello world\r\n"))).1.written
        = wOk.written ++ str "hello world\r\n" :=
  ⟨(builtin_encodable_identity (str "hello world\r\n") (str "x") wOk (fun _ => rfl)).1,
   (builtin_encodable_identity (str "hello world\r\n") (str "x") wOk
      (fun _ => rfl)).2.2.2.1⟩
